import Mathlib

/-!
Verification of the component download/serve pipeline (`src/src/lib/component_manager.ts`)
and the note action-sheet view model (`src/unnamed/part_000`) of the mobile note-taking app.

Modelling conventions, stated once:

* Filesystem paths are represented as lists of path components (`Path := List String`);
  a TypeScript string path such as `${BASE_DOCUMENTS_PATH}/components/${identifier}` is
  written as the component list `[baseDocumentsPath, "components", identifier]`.
  This is faithful because identifiers and path segments in the source never contain `/`.
* The filesystem is an association list of full paths to nodes (files with contents, or
  directory markers).  A path "exists" when it is a prefix of some stored entry's path,
  so ancestors of stored entries exist implicitly.
* External collaborators (`react-native-fs`, the zip extractor, the crypto `sha256`,
  `JSON.parse`, the checksum registry JSON and the `Features` registry) are inputs,
  collected in an `Env` record.  Every asynchronous gateway call may reject its promise;
  this is modelled by the fault oracle `Env.exn : Op → Bool`, consulted per call.
* Each gateway call is recorded in an operation trace (`St.tr`), so that statements of
  the form "extraction is never performed" or "the checksum is never computed" are
  statements about the trace of a run.
* Fallible TypeScript code (`throw`, promise rejection) is modelled with `Except`;
  the error value carries the state at the point of the throw, so that a `catch`
  continues from the partially-mutated filesystem, as the real code does.
-/

namespace CompMgr

/-- A filesystem path, as its list of `/`-separated components. -/
abbrev Path := List String

/-- A filesystem node: a file with contents, or an (empty-)directory marker.
File contents are abstract strings; the byte/text encoding distinction of
`RNFS.readFile` is irrelevant here because no claim reads one file under two
encodings. -/
inductive Node
  | file (content : String)
  | dir
  deriving DecidableEq, Repr, Inhabited

/-- The filesystem: an association list from full paths to nodes. -/
abbrev Fs := List (Path × Node)

/-- `RNFS.exists`: a path exists when it is a (non-strict) prefix of some entry. -/
def existsb (fs : Fs) (p : Path) : Bool :=
  fs.any (fun e => p.isPrefixOf e.1)

/-- `RNFS.readFile`: the contents of the file stored exactly at `p`, if any. -/
def readFilePure (fs : Fs) (p : Path) : Option String :=
  match fs.find? (fun e => e.1 == p) with
  | some (_, Node.file c) => some c
  | _ => none

/-- Writing a file at `p` (the effect of a completed `RNFS.downloadFile`):
replaces anything previously stored at or below `p`. -/
def writeFilePure (p : Path) (c : String) (fs : Fs) : Fs :=
  (p, Node.file c) :: fs.filter (fun e => !(p.isPrefixOf e.1))

/-- `RNFS.unlink`: recursively removes everything at or below `p`. -/
def unlinkPure (p : Path) (fs : Fs) : Fs :=
  fs.filter (fun e => !(p.isPrefixOf e.1))

/-- `RNFS.moveFile` with rename/replace semantics: the subtree at `src` is rebased
onto `dst`, anything previously at or below `dst` is removed. -/
def movePure (src dst : Path) (fs : Fs) : Fs :=
  fs.filterMap
      (fun e =>
        if src.isPrefixOf e.1 then some (dst ++ e.1.drop src.length, e.2) else none) ++
    fs.filter (fun e => !(src.isPrefixOf e.1) && !(dst.isPrefixOf e.1))

/-- The name of the immediate child of `p` along the path `q`, when `q` lies
strictly below `p`. -/
def childName (p q : Path) : Option String :=
  if p.isPrefixOf q then (q.drop p.length).head? else none

/-- The distinct names of the immediate children of directory `p`. -/
def childNamesPure (fs : Fs) (p : Path) : List String :=
  (fs.filterMap (fun e => childName p e.1)).dedup

/-- Whether the path `q` denotes a directory: it carries a directory marker, or
some entry lies strictly below it. -/
def isDirAt (fs : Fs) (q : Path) : Bool :=
  fs.any (fun e => (e.1 == q && e.2 == Node.dir) || (q.isPrefixOf e.1 && e.1 != q))

/-- One entry of an `RNFS.readDir` listing: the entry's full path, and the result
of its `isDirectory()` method. -/
structure DirEntry where
  path : Path
  isDir : Bool
  deriving DecidableEq, Repr

/-- `RNFS.readDir`: the immediate children of `p`, with their directory flags. -/
def readDirPure (fs : Fs) (p : Path) : List DirEntry :=
  (childNamesPure fs p).map (fun c => ⟨p ++ [c], isDirAt fs (p ++ [c])⟩)

/-- The zip extractor (`react-native-zip-archive` `unzip`): merges the archive's
entries, rebased under `dst`, into the filesystem, and creates `dst` itself. -/
def unzipPure (archive : List (Path × Node)) (dst : Path) (fs : Fs) : Fs :=
  (dst, Node.dir) :: archive.map (fun e => (dst ++ e.1, e.2)) ++ fs

/-- The part of the filesystem lying at or below `p`. -/
def subtree (fs : Fs) (p : Path) : Fs :=
  fs.filter (fun e => p.isPrefixOf e.1)

/-- One call to an external collaborator, as recorded in the run trace. -/
inductive Op
  | fsExists (p : Path)
  | fsUnlink (p : Path)
  | fsDownload (url : String) (p : Path)
  | fsReadFile (p : Path)
  | fsUnzip (src dst : Path)
  | fsReadDir (p : Path)
  | fsMoveFile (src dst : Path)
  | cryptoSha256 (input : String)
  deriving DecidableEq, Repr

/-- Run state: the filesystem, plus the trace of collaborator calls made so far. -/
structure St where
  fs : Fs
  tr : List Op
  deriving Repr

/-- A registry `FeatureDescription` (only the fields the manager reads). -/
structure Feature where
  identifier : String
  download_url : Option String
  version : Option String
  index_path : String
  deriving DecidableEq, Repr

/-- A parsed `package.json` manifest (only the fields the manager reads:
`version`, and the nested `sn.main` entry-point override). -/
structure Manifest where
  version : Option String
  sn_main : Option String
  deriving DecidableEq, Repr

/-- An `SNComponent` (only the fields the manager reads).  `isThemeFlag` models
`component.isTheme()`, `isSystemTheme` models `component.safeContent.isSystemTheme`,
and `themeVariables` models `(component as MobileTheme).mobileContent.variables`. -/
structure SNComponent where
  identifier : String
  package_info_download_url : Option String
  package_info_version : Option String
  isThemeFlag : Bool
  isSystemTheme : Bool
  themeVariables : List (String × String)
  deriving DecidableEq, Repr

/-- The environment of one `ComponentManager` run: the bundled registries and the
behaviour of all external collaborators. -/
structure Env where
  /-- The bundled `Features` registry. -/
  features : List Feature
  /-- `FeatureChecksums[id]?.base64`: the checksum registry JSON lookup. -/
  checksums : String → Option String
  /-- The transport's HTTP status code for the download of this run. -/
  statusCode : Nat
  /-- The archive contents delivered by `RNFS.downloadFile`, as the base64 text
  that `RNFS.readFile(..., 'base64')` will subsequently return. -/
  archiveB64 : String
  /-- The crypto collaborator's `sha256` over base64 text. -/
  sha256 : String → String
  /-- The tree of (relative path, node) entries the downloaded archive unpacks to. -/
  archive : List (Path × Node)
  /-- `JSON.parse` followed by field extraction; `none` models a parse throw. -/
  jsonParse : String → Option Manifest
  /-- Fault injection: which collaborator calls reject their promise. -/
  exn : Op → Bool

/-- Record `op` in the trace, then either reject (when the fault oracle says so)
or succeed. -/
def opRun (env : Env) (op : Op) (s : St) : Except St St :=
  let s' : St := ⟨s.fs, s.tr ++ [op]⟩
  if env.exn op then .error s' else .ok s'

/-- `RNFS.exists`. -/
def fsExistsM (env : Env) (p : Path) (s : St) : Except St (Bool × St) :=
  match opRun env (Op.fsExists p) s with
  | .error s' => .error s'
  | .ok s' => .ok (existsb s'.fs p, s')

/-- `RNFS.unlink`. -/
def fsUnlinkM (env : Env) (p : Path) (s : St) : Except St (Unit × St) :=
  match opRun env (Op.fsUnlink p) s with
  | .error s' => .error s'
  | .ok s' => .ok ((), ⟨unlinkPure p s'.fs, s'.tr⟩)

/-- `RNFS.downloadFile`: writes the received bytes to `p` and reports the
transport's status code. -/
def fsDownloadM (env : Env) (url : String) (p : Path) (s : St) : Except St (Nat × St) :=
  match opRun env (Op.fsDownload url p) s with
  | .error s' => .error s'
  | .ok s' => .ok (env.statusCode, ⟨writeFilePure p env.archiveB64 s'.fs, s'.tr⟩)

/-- `RNFS.readFile`: rejects when there is no file at `p`. -/
def fsReadFileM (env : Env) (p : Path) (s : St) : Except St (String × St) :=
  match opRun env (Op.fsReadFile p) s with
  | .error s' => .error s'
  | .ok s' =>
    match readFilePure s'.fs p with
    | none => .error s'
    | some c => .ok (c, s')

/-- `unzip` from `react-native-zip-archive`. -/
def fsUnzipM (env : Env) (src dst : Path) (s : St) : Except St (Unit × St) :=
  match opRun env (Op.fsUnzip src dst) s with
  | .error s' => .error s'
  | .ok s' => .ok ((), ⟨unzipPure env.archive dst s'.fs, s'.tr⟩)

/-- `RNFS.readDir`. -/
def fsReadDirM (env : Env) (p : Path) (s : St) : Except St (List DirEntry × St) :=
  match opRun env (Op.fsReadDir p) s with
  | .error s' => .error s'
  | .ok s' => .ok (readDirPure s'.fs p, s')

/-- `RNFS.moveFile`. -/
def fsMoveFileM (env : Env) (src dst : Path) (s : St) : Except St (Unit × St) :=
  match opRun env (Op.fsMoveFile src dst) s with
  | .error s' => .error s'
  | .ok s' => .ok ((), ⟨movePure src dst s'.fs, s'.tr⟩)

/-- `this.protocolService.crypto.sha256`. -/
def sha256M (env : Env) (input : String) (s : St) : Except St (String × St) :=
  match opRun env (Op.cryptoSha256 input) s with
  | .error s' => .error s'
  | .ok s' => .ok (env.sha256 input, s')

/-- The state a pipeline run ends in, whether it returned or threw. -/
def finalSt {α : Type} : Except St (α × St) → St
  | .error s => s
  | .ok (_, s) => s

/-- The returned value of a pipeline run, or `none` if it threw. -/
def okResult {α : Type} : Except St (α × St) → Option α
  | .error _ => none
  | .ok (r, _) => some r

/-! ## The manager's constants and small helpers -/

/-- `DocumentDirectoryPath`, abstracted to one opaque path component. -/
def baseDocumentsPath : String := "Documents"

/-- The single path component of `COMPONENTS_PATH = '/components'`. -/
def componentsFolder : String := "components"

/-- `pathForComponent`: `${BASE_DOCUMENTS_PATH}${COMPONENTS_PATH}/${identifier}`. -/
def pathForComponent (identifier : String) : Path :=
  [baseDocumentsPath, componentsFolder, identifier]

/-- The per-identifier temporary archive path `${BASE_DOCUMENTS_PATH}/${identifier}.zip`. -/
def tmpLocationFor (identifier : String) : Path :=
  [baseDocumentsPath, identifier ++ ".zip"]

/-- The temporary move target `${BASE_DOCUMENTS_PATH}/${identifier}` used by the
layout normalization. -/
def tmpMovePathFor (identifier : String) : Path :=
  [baseDocumentsPath, identifier]

/-- JavaScript truthiness of an optional string: `undefined` and `''` are falsy. -/
def truthy : Option String → Bool
  | none => false
  | some s => s ≠ ""

/-- The JavaScript `a || b` on optional strings. -/
def jsOr (a b : Option String) : Option String :=
  if truthy a then a else b

/-- `nativeFeatureForIdentifier`: `Features.find(f => f.identifier === identifier)`. -/
def nativeFeatureForIdentifier (features : List Feature) (identifier : String) :
    Option Feature :=
  features.find? (fun f => f.identifier == identifier)

/-- The resolved download URL
`nativeFeature?.download_url || component.package_info?.download_url`. -/
def resolveDownloadUrl (features : List Feature) (c : SNComponent) : Option String :=
  jsOr ((nativeFeatureForIdentifier features c.identifier).bind Feature.download_url)
    c.package_info_download_url

/-- `isComponentDownloadable`: `!!downloadUrl` under JS truthiness. -/
def isComponentDownloadable (features : List Feature) (c : SNComponent) : Bool :=
  truthy (resolveDownloadUrl features c)

/-! ## The download-and-verify pipeline -/

/-- The closed set of download outcomes (`ComponentLoadingError`). -/
inductive ComponentLoadingError
  | FailedDownload
  | ChecksumMismatch
  | LocalServerFailure
  | DoesntExist
  | Unknown
  deriving DecidableEq, Repr

/-- `String(result.statusCode).startsWith('2')`: as the prefix is the single
character `'2'`, this is equality of the decimal representation's first character. -/
def statusStartsWithTwo (statusCode : Nat) : Bool :=
  (toString statusCode).data.head? == some '2'

/-- `passesChecksumValidation`: read the archive as base64, hash it, and compare
against the checksum registry entry; a missing entry or a mismatch fails. -/
def passesChecksumValidation (env : Env) (filePath : Path) (featureIdentifier : String)
    (s : St) : Except St (Bool × St) :=
  match fsReadFileM env filePath s with
  | .error s1 => .error s1
  | .ok (zipContents, s1) =>
    match sha256M env zipContents s1 with
    | .error s2 => .error s2
    | .ok (checksum, s2) =>
      match env.checksums featureIdentifier with
      | none => .ok (false, s2)
      | some desiredChecksum =>
        if checksum ≠ desiredChecksum then .ok (false, s2) else .ok (true, s2)

/-- Lines 257–272 of `performDownloadComponent`: if the extracted root holds exactly
one entry and it is a directory, move that directory up to become the install
directory (via the temporary move path, with delete-and-replace semantics). -/
def normalizeIfNested (env : Env) (identifier : String) (s : St) :
    Except St (Unit × St) :=
  let componentPath := pathForComponent identifier
  match fsReadDirM env componentPath s with
  | .error s1 => .error s1
  | .ok (directoryContents, s1) =>
    match directoryContents with
    | [nestedDir] =>
      if nestedDir.isDir then
        let tmpMovePath := tmpMovePathFor identifier
        match fsMoveFileM env nestedDir.path tmpMovePath s1 with
        | .error s2 => .error s2
        | .ok (_, s2) =>
          match fsUnlinkM env componentPath s2 with
          | .error s3 => .error s3
          | .ok (_, s3) => fsMoveFileM env tmpMovePath componentPath s3
      else .ok ((), s1)
    | _ => .ok ((), s1)

/-- Lines 251–274 of `performDownloadComponent`: unzip to the install directory,
normalize the layout, and delete the temporary archive. -/
def performDownloadExtract (env : Env) (identifier : String) (tmpLocation : Path)
    (s : St) : Except St (Option ComponentLoadingError × St) :=
  let componentPath := pathForComponent identifier
  match fsUnzipM env tmpLocation componentPath s with
  | .error s1 => .error s1
  | .ok (_, s1) =>
    match normalizeIfNested env identifier s1 with
    | .error s2 => .error s2
    | .ok (_, s2) =>
      match fsUnlinkM env tmpLocation s2 with
      | .error s3 => .error s3
      | .ok (_, s3) => .ok (none, s3)

/-- `performDownloadComponent`: delete any stale temporary archive, download, gate
on the status code's decimal string starting with `'2'`, verify the checksum for
registry-known identifiers, then extract. -/
def performDownloadComponent (env : Env) (identifier : String) (downloadUrl : String)
    (s : St) : Except St (Option ComponentLoadingError × St) :=
  let tmpLocation := tmpLocationFor identifier
  match fsExistsM env tmpLocation s with
  | .error s1 => .error s1
  | .ok (ex, s1) =>
    let cleaned : Except St (Unit × St) :=
      if ex then fsUnlinkM env tmpLocation s1 else .ok ((), s1)
    match cleaned with
    | .error s2 => .error s2
    | .ok (_, s2) =>
      match fsDownloadM env downloadUrl tmpLocation s2 with
      | .error s3 => .error s3
      | .ok (result, s3) =>
        if !statusStartsWithTwo result then
          .ok (some ComponentLoadingError.FailedDownload, s3)
        else
          let requireChecksumVerification :=
            (nativeFeatureForIdentifier env.features identifier).isSome
          if requireChecksumVerification then
            match passesChecksumValidation env tmpLocation identifier s3 with
            | .error s4 => .error s4
            | .ok (passes, s4) =>
              if !passes then .ok (some ComponentLoadingError.ChecksumMismatch, s4)
              else performDownloadExtract env identifier tmpLocation s4
          else performDownloadExtract env identifier tmpLocation s3

/-- `downloadComponentOffline`: resolve the URL (throwing on the programmer-contract
violation), run the pipeline inside `try`/`catch` mapping any exception to
`Unknown`, then — outside the `catch` — check that the install directory exists. -/
def downloadComponentOffline (env : Env) (c : SNComponent) (s : St) :
    Except St (Option ComponentLoadingError × St) :=
  let identifier := c.identifier
  let downloadUrl := resolveDownloadUrl env.features c
  if !truthy downloadUrl then .error s
  else
    match performDownloadComponent env identifier (downloadUrl.getD "") s with
    | .error sc => .ok (some ComponentLoadingError.Unknown, sc)
    | .ok (some err, s1) => .ok (some err, s1)
    | .ok (none, s1) =>
      let componentPath := pathForComponent identifier
      match fsExistsM env componentPath s1 with
      | .error s2 => .error s2
      | .ok (exOk, s2) =>
        if !exOk then .ok (some ComponentLoadingError.DoesntExist, s2)
        else .ok (none, s2)

/-! ## File access and path resolution -/

/-- `getFile`: `undefined` when the install directory or the file is missing,
otherwise the file contents.  `relativePath` is the relative path's component list. -/
def getFile (env : Env) (identifier : String) (relativePath : Path) (s : St) :
    Except St (Option String × St) :=
  let componentPath := pathForComponent identifier
  match fsExistsM env componentPath s with
  | .error s1 => .error s1
  | .ok (dirEx, s1) =>
    if !dirEx then .ok (none, s1)
    else
      match fsExistsM env (componentPath ++ relativePath) s1 with
      | .error s2 => .error s2
      | .ok (fileEx, s2) =>
        if !fileEx then .ok (none, s2)
        else
          match fsReadFileM env (componentPath ++ relativePath) s2 with
          | .error s3 => .error s3
          | .ok (fileContents, s3) => .ok (some fileContents, s3)

/-- `getDownloadedComponentPackageJsonFile`: read the installed manifest.  The
source's `if (!file)` guard treats a falsy `getFile` result — `undefined` or the
empty string — as an absent manifest; otherwise the contents are passed to
`JSON.parse`, whose throw propagates. -/
def getDownloadedComponentPackageJsonFile (env : Env) (identifier : String) (s : St) :
    Except St (Option Manifest × St) :=
  match getFile env identifier ["package.json"] s with
  | .error s1 => .error s1
  | .ok (file, s1) =>
    if !truthy file then .ok (none, s1)
    else
      match env.jsonParse (file.getD "") with
      | none => .error s1
      | some packageJson => .ok (some packageJson, s1)

/-- The third-party index-path cache `thirdPartyIndexPaths`. -/
abbrev IndexCache := List (String × String)

/-- `getIndexFileRelativePath`: the registry's declared index path for native
features, otherwise the cached third-party path (`undefined` when not cached). -/
def getIndexFileRelativePath (features : List Feature) (cache : IndexCache)
    (identifier : String) : Option String :=
  match nativeFeatureForIdentifier features identifier with
  | some nativeFeature => some nativeFeature.index_path
  | none => cache.lookup identifier

/-! ## Version comparison and the re-download decision -/

/-- Splitting a character list on `'.'` (the version-segment separator). -/
def splitOnDot : List Char → List (List Char)
  | [] => [[]]
  | ch :: rest =>
    if ch = '.' then [] :: splitOnDot rest
    else
      match splitOnDot rest with
      | seg :: segs => (ch :: seg) :: segs
      | [] => [[ch]]

/-- Decimal parsing of one version segment; `none` on an empty or non-numeric
segment. -/
def segToNat (seg : List Char) : Option Nat :=
  if seg = [] then none
  else
    seg.foldl
      (fun acc ch =>
        match acc with
        | none => none
        | some n => if ch.isDigit then some (n * 10 + (ch.toNat - 48)) else none)
      (some 0)

/-- Modelled from the spec: the snjs helper `isRightVersionGreaterThanLeft` is not
under `src/`; per §4.4 it is a semantic-version comparison with major.minor.patch
ordering where non-numeric or missing segments are treated as lowest.  This is the
value of one segment, a non-numeric segment counting as lowest. -/
def segValue (seg : List Char) : Nat := (segToNat seg).getD 0

/-- Modelled from the spec: the major.minor.patch triple of an optional version
string; a missing string or missing segments are treated as lowest. -/
def semverTriple (v : Option String) : Nat × Nat × Nat :=
  match v with
  | none => (0, 0, 0)
  | some s =>
    let segs := (splitOnDot s.data).map segValue
    (segs.getD 0 0, segs.getD 1 0, segs.getD 2 0)

/-- Modelled from the spec: `isRightVersionGreaterThanLeft(left, right)` holds when
`right` is strictly greater than `left` under major.minor.patch ordering. -/
def isRightVersionGreaterThanLeft (left right : Option String) : Bool :=
  let l := semverTriple left
  let r := semverTriple right
  l.1 < r.1 || (l.1 == r.1 && (l.2.1 < r.2.1 || (l.2.1 == r.2.1 && l.2.2 < r.2.2)))

/-- `doesComponentNeedDownload`: throws without a resolvable URL; otherwise needs a
download when there is no installed manifest or the latest known version (registry
version taking precedence) is strictly greater than the installed one. -/
def doesComponentNeedDownload (env : Env) (c : SNComponent) (s : St) :
    Except St (Bool × St) :=
  let identifier := c.identifier
  let nativeFeature := nativeFeatureForIdentifier env.features identifier
  let downloadUrl := resolveDownloadUrl env.features c
  if !truthy downloadUrl then .error s
  else
    let version := jsOr (nativeFeature.bind Feature.version) c.package_info_version
    match getDownloadedComponentPackageJsonFile env identifier s with
    | .error s1 => .error s1
    | .ok (existingPackageJson, s1) =>
      let existingVersion := existingPackageJson.bind Manifest.version
      let shouldDownload :=
        existingPackageJson.isNone || isRightVersionGreaterThanLeft existingVersion version
      .ok (shouldDownload, s1)

/-! ## Base64 (js-base64 `Base64.encodeURI`) and UTF-8 -/

/-- The base64url alphabet used by `Base64.encodeURI`. -/
def b64Alphabet : List Char :=
  ['A', 'B', 'C', 'D', 'E', 'F', 'G', 'H', 'I', 'J', 'K', 'L', 'M',
   'N', 'O', 'P', 'Q', 'R', 'S', 'T', 'U', 'V', 'W', 'X', 'Y', 'Z',
   'a', 'b', 'c', 'd', 'e', 'f', 'g', 'h', 'i', 'j', 'k', 'l', 'm',
   'n', 'o', 'p', 'q', 'r', 's', 't', 'u', 'v', 'w', 'x', 'y', 'z',
   '0', '1', '2', '3', '4', '5', '6', '7', '8', '9', '-', '_']

/-- The alphabet character of a sextet. -/
def b64Char (n : Nat) : Char := b64Alphabet.getD n 'A'

/-- The sextet of an alphabet character, if any. -/
def b64Val (ch : Char) : Option Nat := b64Alphabet.findIdx? (fun c => c == ch)

/-- Bytes to sextets, three bytes to four sextets, with unpadded tail groups. -/
def encodeGroups : List Nat → List Nat
  | [] => []
  | [a] => [a / 4, a % 4 * 16]
  | [a, b] => [a / 4, a % 4 * 16 + b / 16, b % 16 * 4]
  | a :: b :: c :: rest =>
    [a / 4, a % 4 * 16 + b / 16, b % 16 * 4 + c / 64, c % 64] ++ encodeGroups rest

/-- `Base64.encodeURI` over a byte sequence: base64url alphabet, no padding. -/
def base64EncodeUri (bytes : List Nat) : String :=
  String.mk ((encodeGroups bytes).map b64Char)

/-- Sextets back to bytes; rejects impossible group lengths and nonzero padding bits. -/
def decodeGroups : List Nat → Option (List Nat)
  | [] => some []
  | [_] => none
  | [a, b] => if b % 16 = 0 then some [a * 4 + b / 16] else none
  | [a, b, c] =>
    if c % 4 = 0 then some [a * 4 + b / 16, b % 16 * 16 + c / 4] else none
  | a :: b :: c :: d :: rest =>
    (decodeGroups rest).map
      (fun tl => (a * 4 + b / 16) :: (b % 16 * 16 + c / 4) :: (c % 4 * 64 + d) :: tl)

/-- The sextets of a payload's characters; `none` on a character outside the
alphabet. -/
def payloadSextets : List Char → Option (List Nat)
  | [] => some []
  | ch :: cs =>
    match b64Val ch, payloadSextets cs with
    | some v, some vs => some (v :: vs)
    | _, _ => none

/-- Base64url decoding of an unpadded payload, to its byte sequence. -/
def base64Decode (payload : String) : Option (List Nat) :=
  match payloadSextets payload.data with
  | none => none
  | some sextets => decodeGroups sextets

/-- The UTF-8 bytes of one character. -/
def utf8Char (ch : Char) : List Nat :=
  if ch.toNat < 128 then [ch.toNat]
  else if ch.toNat < 2048 then [192 + ch.toNat / 64, 128 + ch.toNat % 64]
  else if ch.toNat < 65536 then
    [224 + ch.toNat / 4096, 128 + ch.toNat / 64 % 64, 128 + ch.toNat % 64]
  else
    [240 + ch.toNat / 262144, 128 + ch.toNat / 4096 % 64, 128 + ch.toNat / 64 % 64,
      128 + ch.toNat % 64]

/-- The UTF-8 byte sequence of a string. -/
def utf8Bytes (s : String) : List Nat := (s.data.map utf8Char).flatten

/-! ## URL resolution for rendering -/

/-- Modelled from the spec: `objectToCss` lives in `@Style/css_parser`, which is not
under `src/`; per §4.5 it serializes the theme variables to a stylesheet text.
Each variable becomes one declaration line. -/
def objectToCss (themeVariables : List (String × String)) : String :=
  String.intercalate "\n"
    (themeVariables.map (fun kv => "--" ++ kv.1 ++ ": " ++ kv.2 ++ ";"))

/-- `urlForComponent`.  System themes render as an inline `data:` URL of the
base64url-encoded serialized variables.  Non-downloadable components delegate to
`super.urlForComponent` (the collaborator `superUrl`).  Downloadable components
resolve against the Local Asset Server's base URL, throwing when the third-party
index path was never preloaded (`''` index paths are falsy, as in the source).
The relative package path computed by splitting on `COMPONENTS_PATH` is `/id`,
since identifiers contain no `/` and the base path does not contain
`/components`. -/
def urlForComponent (features : List Feature) (cache : IndexCache)
    (staticServerUrl : String) (superUrl : String → Option String)
    (c : SNComponent) : Except Unit (Option String) :=
  if c.isThemeFlag && c.isSystemTheme then
    .ok (some ("data:text/css;base64," ++
      base64EncodeUri (utf8Bytes (objectToCss c.themeVariables))))
  else if !isComponentDownloadable features c then
    .ok (superUrl c.identifier)
  else
    let identifier := c.identifier
    let indexFilePath := getIndexFileRelativePath features cache identifier
    if !truthy indexFilePath then .error ()
    else
      .ok (some (staticServerUrl ++ "/" ++ identifier ++ "/" ++ indexFilePath.getD ""))

/-! ## The note action-sheet view model (`src/unnamed/part_000`) -/

/-- The flags of a note that the action-sheet view model reads. -/
structure NoteFlags where
  pinned : Bool
  archived : Bool
  locked : Bool
  protectedFlag : Bool
  trashed : Bool
  deriving DecidableEq, Repr

/-- One action of the sheet: its visible text and its `NoteAction` key. -/
structure SheetAction where
  text : String
  key : String
  deriving DecidableEq, Repr

/-- `restoreAction`. -/
def restoreAction : SheetAction := ⟨"Restore", "restore-note"⟩

/-- `deleteAction`. -/
def deleteAction : SheetAction := ⟨"Delete permanently", "delete-forever"⟩

/-- `moveToTrashAction`. -/
def moveToTrashAction : SheetAction := ⟨"Move to Trash", "trash"⟩

/-- `protectAction`. -/
def protectAction (note : NoteFlags) : SheetAction :=
  ⟨if note.protectedFlag then "Unprotect" else "Protect", "protect"⟩

/-- `pinAction`. -/
def pinAction (note : NoteFlags) : SheetAction :=
  ⟨if note.pinned then "Unpin" else "Pin to top", "pin"⟩

/-- `archiveAction`. -/
def archiveAction (note : NoteFlags) : SheetAction :=
  ⟨if note.archived then "Unarchive" else "Archive", "archive"⟩

/-- `lockAction`. -/
def lockAction (note : NoteFlags) : SheetAction :=
  ⟨if note.locked then "Unlock" else "Lock", "lock"⟩

/-- `shareAction`. -/
def shareAction : SheetAction := ⟨"Share", "share"⟩

/-- The `actions` list of `commonSection`: a protected note gets only the protect
action; otherwise pin/archive/lock/protect/share followed by the trash actions
(restore and delete-forever when trashed, move-to-trash otherwise). -/
def commonSectionActions (note : NoteFlags) : List SheetAction :=
  let trashActions :=
    if note.trashed then [restoreAction, deleteAction] else [moveToTrashAction]
  if note.protectedFlag then [protectAction note]
  else
    [pinAction note, archiveAction note, lockAction note, protectAction note,
      shareAction] ++ trashActions

/-- Whether a directory currently has the "single wrapped directory" layout that
the normalization step rewrites. -/
def isNestedLayout (fs : Fs) (p : Path) : Bool :=
  match readDirPure fs p with
  | [e] => e.isDir
  | _ => false

/-- The manifest installed on disk, as a pure function of the filesystem: `none`
when the install directory or the manifest file is missing, the file is empty
(falsy under the source's `if (!file)` guard), or the content does not parse. -/
def installedPackageJsonPure (env : Env) (identifier : String) (fs : Fs) :
    Option Manifest :=
  if existsb fs (pathForComponent identifier) = false then none
  else if existsb fs (pathForComponent identifier ++ ["package.json"]) = false then none
  else
    match readFilePure fs (pathForComponent identifier ++ ["package.json"]) with
    | none => none
    | some content => if content = "" then none else env.jsonParse content

/-- A trace containing no checksum computation. -/
def ShaFree (l : List Op) : Prop := ∀ x, Op.cryptoSha256 x ∉ l

/-! ## Concrete inputs used by witnesses and counterexamples -/

/-- A registry feature for the C1 witness. -/
def w1Feature : Feature :=
  ⟨"com.example.editor", some "https://cdn.example/editor.zip", some "1.3.0", "index.html"⟩

/-- C1 witness environment: registry checksum `AAA=`, computed digest `BBB=`. -/
def w1Env : Env :=
  ⟨[w1Feature], fun _ => some "AAA=", 204, "ZIPB64", fun _ => "BBB=",
    [(["index.html"], Node.file "editor")], fun _ => none, fun _ => false⟩

/-- C1 witness component. -/
def w1Comp : SNComponent := ⟨"com.example.editor", none, none, false, false, []⟩

/-- C2 witness environment: no registry entry for the identifier. -/
def w2Env : Env :=
  ⟨[], fun _ => none, 200, "Z", fun _ => "h", [(["index.html"], Node.file "hi")],
    fun _ => none, fun _ => false⟩

/-- C2 witness component (third-party). -/
def w2Comp : SNComponent :=
  ⟨"org.thirdparty.editor", some "https://u/d.zip", none, false, false, []⟩

/-- C3 witness environment: the zip extractor rejects its promise. -/
def w3Env : Env :=
  ⟨[], fun _ => none, 204, "Z", fun _ => "h", [(["index.html"], Node.file "hi")],
    fun _ => none,
    fun o => o == Op.fsUnzip (tmpLocationFor "demo") (pathForComponent "demo")⟩

/-- C3 witness component. -/
def w3Comp : SNComponent := ⟨"demo", some "https://u/d.zip", none, false, false, []⟩

/-- C3 counterexample component. -/
def c3Component : SNComponent := ⟨"demo", some "https://u/d.zip", none, false, false, []⟩

/-- C3 counterexample environment: the post-extraction existence check rejects. -/
def c3Env : Env :=
  ⟨[], fun _ => none, 204, "Z", fun _ => "h", [(["index.html"], Node.file "hi")],
    fun _ => none, fun o => o == Op.fsExists (pathForComponent "demo")⟩

/-- C4 witness environment: HTTP 404, no faults. -/
def w4Env : Env :=
  ⟨[], fun _ => none, 404, "Z", fun _ => "h", [(["index.html"], Node.file "hi")],
    fun _ => none, fun _ => false⟩

/-- C4 witness component. -/
def w4Comp : SNComponent := ⟨"sample", some "https://u/s.zip", none, false, false, []⟩

/-- C4 counterexample component. -/
def c4Component : SNComponent := ⟨"sample", some "https://u/s.zip", none, false, false, []⟩

/-- C4 counterexample environment: transport status code 20, outside 200–299, yet
its decimal representation starts with the character `2`. -/
def c4Env : Env :=
  ⟨[], fun _ => none, 20, "Z", fun _ => "h", [(["index.html"], Node.file "hi")],
    fun _ => none, fun _ => false⟩

/-- C5 witness feature: latest registry version 1.3.0. -/
def w5Feature : Feature :=
  ⟨"com.example.editor", some "https://cdn.example/editor.zip", some "1.3.0", "index.html"⟩

/-- C5 witness environment: the installed manifest text `PKG12` parses to
version 1.2.0. -/
def w5Env : Env :=
  ⟨[w5Feature], fun _ => none, 200, "Z", fun _ => "h", [],
    fun s => if s = "PKG12" then some ⟨some "1.2.0", none⟩ else none, fun _ => false⟩

/-- C5 witness component. -/
def w5Comp : SNComponent := ⟨"com.example.editor", none, none, false, false, []⟩

/-- C5 witness filesystem: an installed manifest with version 1.2.0. -/
def w5Fs : Fs :=
  [(pathForComponent "com.example.editor" ++ ["package.json"], Node.file "PKG12")]

/-- C5 witness component without any download URL (and absent from the registry). -/
def w5NoUrlComp : SNComponent := ⟨"com.nourl.editor", none, none, false, false, []⟩

/-- C6 witness component: a system theme with two variables. -/
def w6Comp : SNComponent :=
  ⟨"org.example.theme", none, none, true, true,
    [("stylekit-background-color", "white"), ("stylekit-foreground-color", "black")]⟩

/-- C7 witness component: a downloadable third-party component. -/
def w7Comp : SNComponent :=
  ⟨"com.thirdparty.editor", some "https://u/t.zip", none, false, false, []⟩

/-- C8 witness identifier. -/
def w8Id : String := "demo"

/-- C8 witness filesystem: the extracted root holds a single wrapping directory. -/
def w8Fs : Fs :=
  [(pathForComponent "demo" ++ ["wrap", "index.html"], Node.file "x"),
    (pathForComponent "demo" ++ ["wrap", "sub", "app.js"], Node.file "y")]

/-- C8 witness environment (no faults). -/
def w8Env : Env :=
  ⟨[], fun _ => none, 200, "Z", fun _ => "h", [], fun _ => none, fun _ => false⟩

/-- C8 witness filesystem for the already-normalized case: two entries at the root. -/
def w8FlatFs : Fs :=
  [(pathForComponent "demo" ++ ["index.html"], Node.file "x"),
    (pathForComponent "demo" ++ ["app.js"], Node.file "y")]

/-- C9 counterexample note: trashed, not protected. -/
def c9Note : NoteFlags := ⟨false, false, false, false, true⟩

/-- C9 witness note: pinned, locked, trashed, not protected. -/
def w9Note : NoteFlags := ⟨true, false, true, false, true⟩

/-- C10 witness environment. -/
def w10Env : Env :=
  ⟨[], fun _ => none, 200, "Z", fun _ => "h", [], fun _ => none, fun _ => false⟩

/-- C10 witness filesystem: an install directory with one file, and no
`package.json`. -/
def w10Fs : Fs := [(pathForComponent "demo" ++ ["index.html"], Node.file "x")]

/-! ## General lemmas about the model -/

/-- Restatement of the library fact relating the boolean `isPrefixOf` to the
prefix order, under a name convenient for rewriting. -/
theorem isPrefixOf_iff {l1 l2 : List String} :
    List.isPrefixOf l1 l2 = true ↔ l1 <+: l2 :=
  List.isPrefixOf_iff_prefix

/-- Two prefixes of the same list are comparable. -/
theorem prefixComparable {l1 l2 l3 : List String} (h1 : l1 <+: l3) (h2 : l2 <+: l3) :
    l1 <+: l2 ∨ l2 <+: l1 :=
  List.prefix_or_prefix_of_prefix h1 h2

/-- A status code in the 2xx class passes the source's `startsWith('2')` gate. -/
theorem statusStartsWithTwo_of_2xx_aux : ∀ k < 100, statusStartsWithTwo (200 + k) = true := by
  decide

/-- A status code in the 2xx class passes the source's `startsWith('2')` gate. -/
theorem statusStartsWithTwo_of_2xx {n : Nat} (h1 : 200 ≤ n) (h2 : n ≤ 299) :
    statusStartsWithTwo n = true := by
  have e : n = 200 + (n - 200) := by omega
  rw [e]; exact statusStartsWithTwo_of_2xx_aux _ (by omega)

/-- Reading back a file just written. -/
theorem readFilePure_writeFilePure (p : Path) (c : String) (fs : Fs) :
    readFilePure (writeFilePure p c fs) p = some c := by
  simp [readFilePure, writeFilePure, List.find?]

/-- Unlinking below an unrelated path does not change a subtree. -/
theorem subtree_unlinkPure {p q : Path} (h1 : ¬ p <+: q) (h2 : ¬ q <+: p) (fs : Fs) :
    subtree (unlinkPure q fs) p = subtree fs p := by
  unfold subtree unlinkPure
  rw [List.filter_filter]
  apply List.filter_congr
  intro e _
  by_cases hp : p <+: e.1
  · have hq : ¬ q <+: e.1 := fun hq => (prefixComparable hp hq).elim h1 h2
    have hb : List.isPrefixOf q e.1 = false := by
      cases hb : List.isPrefixOf q e.1
      · rfl
      · exact absurd (isPrefixOf_iff.mp hb) hq
    simp [isPrefixOf_iff, hp, hb]
  · simp [isPrefixOf_iff, hp]

/-- Writing a file at an unrelated path does not change a subtree. -/
theorem subtree_writeFilePure {p q : Path} (h1 : ¬ p <+: q) (h2 : ¬ q <+: p)
    (c : String) (fs : Fs) : subtree (writeFilePure q c fs) p = subtree fs p := by
  unfold writeFilePure
  rw [show ((q, Node.file c) :: fs.filter (fun e => !(q.isPrefixOf e.1)))
      = [(q, Node.file c)] ++ fs.filter (fun e => !(q.isPrefixOf e.1)) from rfl]
  unfold subtree
  rw [List.filter_append]
  have h0 : List.filter (fun e => p.isPrefixOf e.1) [(q, Node.file c)] = [] := by
    simp [isPrefixOf_iff, h1]
  rw [h0, List.nil_append]
  exact subtree_unlinkPure h1 h2 fs

/-- No identifier's temporary archive name collides with the components folder. -/
theorem zip_ne_componentsFolder (id : String) : id ++ ".zip" ≠ componentsFolder := by
  intro h
  have hd : id.data ++ ".zip".data = "compon".data ++ "ents".data := by
    rw [← String.data_append, h]
    rfl
  have := (List.append_inj' hd rfl).2
  exact absurd this (by decide)

/-- The install directory is not below the temporary archive path. -/
theorem cp_not_prefix_tmp (id : String) : ¬ pathForComponent id <+: tmpLocationFor id := by
  intro h
  have := h.length_le
  simp [pathForComponent, tmpLocationFor] at this

/-- The temporary archive path is not above the install directory. -/
theorem tmp_not_prefix_cp (id : String) : ¬ tmpLocationFor id <+: pathForComponent id := by
  intro h
  rw [tmpLocationFor, pathForComponent, List.cons_prefix_cons, List.cons_prefix_cons] at h
  exact zip_ne_componentsFolder id h.2.1

/-- The trace grows by exactly the recorded operation, fault or not. -/
theorem tr_fsExistsM (env : Env) (p : Path) (s : St) :
    (finalSt (fsExistsM env p s)).tr = s.tr ++ [Op.fsExists p] := by
  unfold fsExistsM opRun finalSt
  rcases hb : env.exn (Op.fsExists p) <;> simp [hb]

/-- The trace grows by exactly the recorded operation, fault or not. -/
theorem tr_fsUnlinkM (env : Env) (p : Path) (s : St) :
    (finalSt (fsUnlinkM env p s)).tr = s.tr ++ [Op.fsUnlink p] := by
  unfold fsUnlinkM opRun finalSt
  rcases hb : env.exn (Op.fsUnlink p) <;> simp [hb]

/-- The trace grows by exactly the recorded operation, fault or not. -/
theorem tr_fsDownloadM (env : Env) (url : String) (p : Path) (s : St) :
    (finalSt (fsDownloadM env url p s)).tr = s.tr ++ [Op.fsDownload url p] := by
  unfold fsDownloadM opRun finalSt
  rcases hb : env.exn (Op.fsDownload url p) <;> simp [hb]

/-- The trace grows by exactly the recorded operation, fault or not. -/
theorem tr_fsReadFileM (env : Env) (p : Path) (s : St) :
    (finalSt (fsReadFileM env p s)).tr = s.tr ++ [Op.fsReadFile p] := by
  unfold fsReadFileM opRun finalSt
  rcases hb : env.exn (Op.fsReadFile p) <;> simp [hb]
  rcases readFilePure s.fs p <;> simp

/-- The trace grows by exactly the recorded operation, fault or not. -/
theorem tr_fsUnzipM (env : Env) (src dst : Path) (s : St) :
    (finalSt (fsUnzipM env src dst s)).tr = s.tr ++ [Op.fsUnzip src dst] := by
  unfold fsUnzipM opRun finalSt
  rcases hb : env.exn (Op.fsUnzip src dst) <;> simp [hb]

/-- The trace grows by exactly the recorded operation, fault or not. -/
theorem tr_fsReadDirM (env : Env) (p : Path) (s : St) :
    (finalSt (fsReadDirM env p s)).tr = s.tr ++ [Op.fsReadDir p] := by
  unfold fsReadDirM opRun finalSt
  rcases hb : env.exn (Op.fsReadDir p) <;> simp [hb]

/-- The trace grows by exactly the recorded operation, fault or not. -/
theorem tr_fsMoveFileM (env : Env) (src dst : Path) (s : St) :
    (finalSt (fsMoveFileM env src dst s)).tr = s.tr ++ [Op.fsMoveFile src dst] := by
  unfold fsMoveFileM opRun finalSt
  rcases hb : env.exn (Op.fsMoveFile src dst) <;> simp [hb]

/-- Appending a non-checksum operation preserves checksum-freeness. -/
theorem shaFree_append (l : List Op) (op : Op) (hop : ∀ x, op ≠ Op.cryptoSha256 x)
    (h : ShaFree l) : ShaFree (l ++ [op]) := by
  intro x
  simp only [List.mem_append, List.mem_singleton]
  rintro (h1 | h2)
  · exact h x h1
  · exact hop x h2.symm

/-- Layout normalization never computes a checksum, whatever faults occur. -/
theorem shaFree_normalizeIfNested (env : Env) (id : String) (s : St)
    (h : ShaFree s.tr) : ShaFree (finalSt (normalizeIfNested env id s)).tr := by
  simp only [normalizeIfNested]
  rcases hr : fsReadDirM env (pathForComponent id) s with s1 | ⟨v, s1⟩ <;>
    have e1 := tr_fsReadDirM env (pathForComponent id) s <;>
    rw [hr] at e1 <;> simp only [finalSt] at e1
  · exact show ShaFree s1.tr by
      rw [e1]; exact shaFree_append _ _ (fun x => by simp) h
  have hs1 : ShaFree s1.tr := by
    rw [e1]; exact shaFree_append _ _ (fun x => by simp) h
  rcases v with _ | ⟨entry, rest⟩
  · exact show ShaFree s1.tr from hs1
  rcases rest with _ | ⟨y, ys⟩
  case cons.cons => exact show ShaFree s1.tr from hs1
  dsimp only
  rcases hdir : entry.isDir with _ | _
  · exact show ShaFree s1.tr from hs1
  rcases hm1 : fsMoveFileM env entry.path (tmpMovePathFor id) s1 with s2 | ⟨u1, s2⟩ <;>
    have em1 := tr_fsMoveFileM env entry.path (tmpMovePathFor id) s1 <;>
    rw [hm1] at em1 <;> simp only [finalSt] at em1
  · exact show ShaFree s2.tr by
      rw [em1]; exact shaFree_append _ _ (fun x => by simp) hs1
  have hs2 : ShaFree s2.tr := by
    rw [em1]; exact shaFree_append _ _ (fun x => by simp) hs1
  dsimp only
  rcases hu : fsUnlinkM env (pathForComponent id) s2 with s3 | ⟨u2, s3⟩ <;>
    have eu := tr_fsUnlinkM env (pathForComponent id) s2 <;>
    rw [hu] at eu <;> simp only [finalSt] at eu
  · exact show ShaFree s3.tr by
      rw [eu]; exact shaFree_append _ _ (fun x => by simp) hs2
  have hs3 : ShaFree s3.tr := by
    rw [eu]; exact shaFree_append _ _ (fun x => by simp) hs2
  exact show ShaFree (finalSt (fsMoveFileM env (tmpMovePathFor id) (pathForComponent id) s3)).tr by
    rw [tr_fsMoveFileM]; exact shaFree_append _ _ (fun x => by simp) hs3

/-- The extract phase never computes a checksum, whatever faults occur. -/
theorem shaFree_performDownloadExtract (env : Env) (id : String) (tmp : Path) (s : St)
    (h : ShaFree s.tr) : ShaFree (finalSt (performDownloadExtract env id tmp s)).tr := by
  simp only [performDownloadExtract]
  rcases hz : fsUnzipM env tmp (pathForComponent id) s with s1 | ⟨u1, s1⟩ <;>
    have ez := tr_fsUnzipM env tmp (pathForComponent id) s <;>
    rw [hz] at ez <;> simp only [finalSt] at ez
  · exact show ShaFree s1.tr by
      rw [ez]; exact shaFree_append _ _ (fun x => by simp) h
  have hs1 : ShaFree s1.tr := by
    rw [ez]; exact shaFree_append _ _ (fun x => by simp) h
  dsimp only
  rcases hn : normalizeIfNested env id s1 with s2 | ⟨u2, s2⟩ <;>
    have en := shaFree_normalizeIfNested env id s1 hs1 <;>
    rw [hn] at en <;> simp only [finalSt] at en
  · exact show ShaFree s2.tr from en
  dsimp only
  rcases hu : fsUnlinkM env tmp s2 with s3 | ⟨u3, s3⟩ <;>
    have eu := tr_fsUnlinkM env tmp s2 <;>
    rw [hu] at eu <;> simp only [finalSt] at eu
  · exact show ShaFree s3.tr by
      rw [eu]; exact shaFree_append _ _ (fun x => by simp) en
  exact show ShaFree s3.tr by
    rw [eu]; exact shaFree_append _ _ (fun x => by simp) en

/-- When the extract phase returns (rather than throwing), it returns success. -/
theorem pde_ok_none (env : Env) (id : String) (tmp : Path) (s : St)
    (r : Option ComponentLoadingError) (s' : St)
    (h : performDownloadExtract env id tmp s = .ok (r, s')) : r = none := by
  simp only [performDownloadExtract] at h
  rcases hz : fsUnzipM env tmp (pathForComponent id) s with s1 | ⟨u1, s1⟩ <;>
    rw [hz] at h <;> dsimp only at h
  · exact absurd h (by simp)
  rcases hn : normalizeIfNested env id s1 with s2 | ⟨u2, s2⟩ <;>
    rw [hn] at h <;> dsimp only at h
  · exact absurd h (by simp)
  rcases hu : fsUnlinkM env tmp s2 with s3 | ⟨u3, s3⟩ <;>
    rw [hu] at h <;> dsimp only at h
  · exact absurd h (by simp)
  rcases h
  rfl

/-- For an identifier absent from the registry the pipeline never computes a
checksum and never returns a checksum mismatch. -/
theorem perform_thirdparty_shaFree (env : Env) (id : String) (url : String) (s : St)
    (hfeat : nativeFeatureForIdentifier env.features id = none) (h : ShaFree s.tr) :
    ShaFree (finalSt (performDownloadComponent env id url s)).tr ∧
      ∀ r s', performDownloadComponent env id url s = .ok (r, s') →
        r ≠ some ComponentLoadingError.ChecksumMismatch := by
  simp only [performDownloadComponent, hfeat, Option.isSome_none, Bool.false_eq_true,
    if_false]
  rcases he : fsExistsM env (tmpLocationFor id) s with s1 | ⟨ex, s1⟩ <;>
    have ee := tr_fsExistsM env (tmpLocationFor id) s <;>
    rw [he] at ee <;> simp only [finalSt] at ee
  · constructor
    · exact show ShaFree s1.tr by
        rw [ee]; exact shaFree_append _ _ (fun x => by simp) h
    · intro r s' hh
      exact absurd hh (by simp)
  have hs1 : ShaFree s1.tr := by
    rw [ee]; exact shaFree_append _ _ (fun x => by simp) h
  dsimp only
  have hclean : ∀ s2 : St, (if ex = true then fsUnlinkM env (tmpLocationFor id) s1
      else Except.ok ((), s1)) = Except.ok ((), s2) ∨
      (if ex = true then fsUnlinkM env (tmpLocationFor id) s1
      else Except.ok ((), s1)) = Except.error s2 → True := fun _ _ => trivial
  rcases hcl : (if ex = true then fsUnlinkM env (tmpLocationFor id) s1
      else Except.ok ((), s1)) with s2 | ⟨u1, s2⟩ <;>
    have hs2ShaFree : ShaFree s2.tr := by
      rcases ex with _ | _
      · simp only [Bool.false_eq_true, if_false] at hcl
        first
        | (rcases hcl; exact hs1)
        | (cases hcl)
      · simp only [if_true] at hcl
        have eu := tr_fsUnlinkM env (tmpLocationFor id) s1
        rw [hcl] at eu
        simp only [finalSt] at eu
        rw [eu]; exact shaFree_append _ _ (fun x => by simp) hs1
  · exact ⟨show ShaFree s2.tr from hs2ShaFree, fun r s' hh => absurd hh (by simp)⟩
  dsimp only
  rcases hd : fsDownloadM env url (tmpLocationFor id) s2 with s3 | ⟨result, s3⟩ <;>
    have ed := tr_fsDownloadM env url (tmpLocationFor id) s2 <;>
    rw [hd] at ed <;> simp only [finalSt] at ed
  · exact ⟨show ShaFree s3.tr by
      rw [ed]; exact shaFree_append _ _ (fun x => by simp) hs2ShaFree,
      fun r s' hh => absurd hh (by simp)⟩
  have hs3 : ShaFree s3.tr := by
    rw [ed]; exact shaFree_append _ _ (fun x => by simp) hs2ShaFree
  dsimp only
  rcases hst : statusStartsWithTwo result with _ | _
  · refine ⟨show ShaFree s3.tr from hs3, ?_⟩
    intro r s' hh
    rcases hh
    simp
  · refine ⟨shaFree_performDownloadExtract env id (tmpLocationFor id) s3 hs3, ?_⟩
    intro r s' hh
    have := pde_ok_none env id (tmpLocationFor id) s3 r s' hh
    rw [this]
    simp


/-- The boolean prefix test is false exactly when there is no prefix relation. -/
theorem isPrefixOf_false {l1 l2 : List String} :
    (List.isPrefixOf l1 l2 = false) ↔ ¬ l1 <+: l2 := by
  rw [Bool.eq_false_iff]
  exact not_congr isPrefixOf_iff

/-- Membership after `unlink`. -/
theorem mem_unlinkPure {e : Path × Node} {p : Path} {fs : Fs} :
    e ∈ unlinkPure p fs ↔ e ∈ fs ∧ ¬ p <+: e.1 := by
  simp [unlinkPure, List.mem_filter, Bool.not_eq_true', isPrefixOf_false]

/-- Membership after `moveFile`: rebased entries plus untouched entries. -/
theorem mem_movePure {e : Path × Node} {src dst : Path} {fs : Fs} :
    e ∈ movePure src dst fs ↔
      (∃ e0 ∈ fs, src <+: e0.1 ∧ e = (dst ++ e0.1.drop src.length, e0.2)) ∨
        (e ∈ fs ∧ ¬ src <+: e.1 ∧ ¬ dst <+: e.1) := by
  simp only [movePure, List.mem_append, List.mem_filterMap, List.mem_filter,
    Bool.and_eq_true, Bool.not_eq_true', isPrefixOf_false]
  constructor
  · rintro (⟨e0, he0, hif⟩ | ⟨he, hs, hd⟩)
    · rcases hb : List.isPrefixOf src e0.1 with _ | _ <;> rw [hb] at hif <;> dsimp at hif
      · cases hif
      · left
        cases hif
        exact ⟨e0, he0, isPrefixOf_iff.mp hb, rfl⟩
    · exact Or.inr ⟨he, hs, hd⟩
  · rintro (⟨e0, he0, hs, rfl⟩ | ⟨he, hs, hd⟩)
    · left
      refine ⟨e0, he0, ?_⟩
      rw [if_pos (isPrefixOf_iff.mpr hs)]
    · exact Or.inr ⟨he, hs, hd⟩

/-- `childName` finds `c` exactly when the path continues below `p` through `c`. -/
theorem childName_eq_some {p q : Path} {c : String} :
    childName p q = some c ↔ p ++ [c] <+: q := by
  unfold childName
  by_cases hp : p <+: q
  · rw [if_pos (isPrefixOf_iff.mpr hp)]
    obtain ⟨r, rfl⟩ := hp
    rw [List.drop_left]
    constructor
    · intro hh
      rcases r with _ | ⟨a, r'⟩
      · cases hh
      · rcases hh
        exact (List.prefix_append_right_inj p).mpr ⟨r', rfl⟩
    · intro hh
      rcases (List.prefix_append_right_inj p).mp hh with ⟨t, ht⟩
      rw [← ht]
      rfl
  · rw [if_neg (fun hb => hp (isPrefixOf_iff.mp hb))]
    constructor
    · intro hh; cases hh
    · intro hh
      exact absurd (((p.prefix_append [c]).trans hh)) hp

/-- A name is a child of `p` exactly when some entry lies below `p` through it. -/
theorem mem_childNames {fs : Fs} {p : Path} {c : String} :
    c ∈ childNamesPure fs p ↔ ∃ e ∈ fs, p ++ [c] <+: e.1 := by
  simp [childNamesPure, List.mem_dedup, List.mem_filterMap, childName_eq_some]

/-- The install directory is never inside the temporary move target. -/
theorem cp_not_prefix_T_append {id : String} (hid : id ≠ componentsFolder) (r : Path) :
    ¬ pathForComponent id <+: tmpMovePathFor id ++ r := by
  intro h
  rw [pathForComponent, tmpMovePathFor] at h
  rw [show ([baseDocumentsPath, id] : Path) ++ r = baseDocumentsPath :: id :: r from rfl,
    List.cons_prefix_cons] at h
  rw [List.cons_prefix_cons] at h
  exact hid h.2.1.symm

/-- After the three move/unlink steps of layout normalization, the install
directory has exactly the wrapped directory's children. -/
theorem normalize_children_core (id nm : String) (hid : id ≠ componentsFolder) (fs : Fs) :
    ∀ c, c ∈ childNamesPure
        (movePure (tmpMovePathFor id) (pathForComponent id)
          (unlinkPure (pathForComponent id)
            (movePure (pathForComponent id ++ [nm]) (tmpMovePathFor id) fs)))
        (pathForComponent id)
      ↔ c ∈ childNamesPure fs (pathForComponent id ++ [nm]) := by
  intro c
  constructor
  · intro hc
    rcases mem_childNames.mp hc with ⟨e', he', hpre⟩
    rcases mem_movePure.mp he' with ⟨e1, he1, hT, rfl⟩ | ⟨he'2, hnT, hncp⟩
    · rcases mem_unlinkPure.mp he1 with ⟨he1f1, hncp1⟩
      rcases mem_movePure.mp he1f1 with ⟨e0, he0, hsrc1, rfl⟩ | ⟨he1fs, hnsrc, hnT2⟩
      · apply mem_childNames.mpr
        refine ⟨e0, he0, ?_⟩
        obtain ⟨r, hr⟩ := hsrc1
        try simp only at hpre
        rw [← hr, List.drop_left, List.drop_left] at hpre
        rw [← hr]
        exact (List.prefix_append_right_inj _).mpr
          ((List.prefix_append_right_inj _).mp hpre)
      · try simp only at hT
        exact absurd hT hnT2
    · exact absurd (((pathForComponent id).prefix_append [c]).trans hpre) hncp
  · intro hc
    rcases mem_childNames.mp hc with ⟨e0, he0, hpre⟩
    have hsrc1 : pathForComponent id ++ [nm] <+: e0.1 :=
      (((pathForComponent id ++ [nm]).prefix_append [c]).trans hpre)
    obtain ⟨r, hr⟩ := hpre
    have hd : e0.1.drop (pathForComponent id ++ [nm]).length = [c] ++ r := by
      rw [← hr, List.append_assoc, List.drop_left]
    apply mem_childNames.mpr
    refine ⟨(pathForComponent id ++ ([c] ++ r), e0.2), ?_, ?_⟩
    · apply mem_movePure.mpr
      left
      refine ⟨(tmpMovePathFor id ++ ([c] ++ r), e0.2), ?_, ?_, ?_⟩
      · apply mem_unlinkPure.mpr
        constructor
        · apply mem_movePure.mpr
          left
          exact ⟨e0, he0, hsrc1, by rw [hd]⟩
        · exact cp_not_prefix_T_append hid ([c] ++ r)
      · exact (tmpMovePathFor id).prefix_append _
      · rw [List.drop_left]
    · exact (List.prefix_append_right_inj _).mpr ⟨r, rfl⟩

/-- A single wrapped directory is lifted: the run succeeds and the install
directory's children become the wrapped directory's children. -/
theorem C8part1 (env : Env) (id nm : String) (fs : Fs) (tr : List Op)
    (hexn : env.exn = fun _ => false) (hid : id ≠ componentsFolder)
    (hrd : readDirPure fs (pathForComponent id) = [⟨pathForComponent id ++ [nm], true⟩]) :
    okResult (normalizeIfNested env id ⟨fs, tr⟩) = some () ∧
      ∀ c, c ∈ childNamesPure (finalSt (normalizeIfNested env id ⟨fs, tr⟩)).fs
          (pathForComponent id)
        ↔ c ∈ childNamesPure fs (pathForComponent id ++ [nm]) := by
  have hfsEq : (finalSt (normalizeIfNested env id ⟨fs, tr⟩)).fs =
      movePure (tmpMovePathFor id) (pathForComponent id)
        (unlinkPure (pathForComponent id)
          (movePure (pathForComponent id ++ [nm]) (tmpMovePathFor id) fs)) := by
    simp [normalizeIfNested, fsReadDirM, fsMoveFileM, fsUnlinkM, opRun, hexn, hrd, finalSt]
  refine ⟨?_, ?_⟩
  · simp [normalizeIfNested, fsReadDirM, fsMoveFileM, fsUnlinkM, opRun, hexn, hrd, okResult]
  · rw [hfsEq]
    exact normalize_children_core id nm hid fs

/-- On an already-normalized directory, the normalization step only reads the
directory and changes nothing. -/
theorem C8part2 (env : Env) (id : String) (fs : Fs) (tr : List Op)
    (hexn : env.exn = fun _ => false)
    (hnested : isNestedLayout fs (pathForComponent id) = false) :
    normalizeIfNested env id ⟨fs, tr⟩ =
      .ok ((), ⟨fs, tr ++ [Op.fsReadDir (pathForComponent id)]⟩) := by
  simp [normalizeIfNested, fsReadDirM, opRun, hexn]
  unfold isNestedLayout at hnested
  rcases hrd : readDirPure fs (pathForComponent id) with _ | ⟨e, rest⟩
  · rfl
  rcases rest with _ | ⟨e2, rest2⟩
  · rw [hrd] at hnested
    dsimp only at hnested
    dsimp only
    rw [hnested]
    rfl
  · rfl

/-- The alphabet lookup inverts the alphabet character of every sextet. -/
theorem b64Val_b64Char : ∀ n < 64, b64Val (b64Char n) = some n := by decide

/-- Encoding bytes yields sextets. -/
theorem encodeGroups_lt : ∀ bs : List Nat, (∀ b ∈ bs, b < 256) →
    ∀ x ∈ encodeGroups bs, x < 64
  | [], _ => by simp [encodeGroups]
  | [a], h => by
    have ha := h a (by simp)
    simp only [encodeGroups, List.mem_cons]
    intro x hx
    rcases hx with rfl | hx
    · omega
    · simp at hx
      omega
  | [a, b], h => by
    have ha := h a (by simp)
    have hb := h b (by simp)
    simp only [encodeGroups, List.mem_cons]
    intro x hx
    rcases hx with rfl | rfl | hx
    · omega
    · omega
    · simp at hx
      omega
  | a :: b :: cc :: rest, h => by
    have ha := h a (by simp)
    have hb := h b (by simp)
    have hc := h cc (by simp)
    have ih := encodeGroups_lt rest (fun y hy => h y (by simp [hy]))
    simp only [encodeGroups, List.cons_append, List.nil_append, List.mem_cons]
    intro x hx
    rcases hx with rfl | rfl | rfl | rfl | hx
    · omega
    · omega
    · omega
    · omega
    · exact ih x hx

/-- Reading back the characters of encoded sextets. -/
theorem payloadSextets_map_b64Char : ∀ ss : List Nat, (∀ x ∈ ss, x < 64) →
    payloadSextets (ss.map b64Char) = some ss
  | [], _ => by simp [payloadSextets]
  | x :: xs, h => by
    have hx := b64Val_b64Char x (h x (by simp))
    have ih := payloadSextets_map_b64Char xs (fun y hy => h y (by simp [hy]))
    simp [payloadSextets, hx, ih]

/-- Decoding inverts encoding on byte sequences. -/
theorem decodeGroups_encodeGroups : ∀ bs : List Nat, (∀ b ∈ bs, b < 256) →
    decodeGroups (encodeGroups bs) = some bs
  | [], _ => by simp [encodeGroups, decodeGroups]
  | [a], h => by
    have ha := h a (by simp)
    simp only [encodeGroups, decodeGroups]
    rw [if_pos (by omega)]
    congr 1
    have : a / 4 * 4 + a % 4 * 16 / 16 = a := by omega
    rw [this]
  | [a, b], h => by
    have ha := h a (by simp)
    have hb := h b (by simp)
    simp only [encodeGroups, decodeGroups]
    rw [if_pos (by omega)]
    congr 1
    have e1 : a / 4 * 4 + (a % 4 * 16 + b / 16) / 16 = a := by omega
    have e2 : (a % 4 * 16 + b / 16) % 16 * 16 + b % 16 * 4 / 4 = b := by omega
    rw [e1, e2]
  | a :: b :: cc :: rest, h => by
    have ha := h a (by simp)
    have hb := h b (by simp)
    have hc := h cc (by simp)
    have ih := decodeGroups_encodeGroups rest (fun y hy => h y (by simp [hy]))
    simp only [encodeGroups, List.cons_append, List.nil_append, List.append_eq,
      decodeGroups, ih, Option.map_some]
    have e1 : a / 4 * 4 + (a % 4 * 16 + b / 16) / 16 = a := by omega
    have e2 : (a % 4 * 16 + b / 16) % 16 * 16 + (b % 16 * 4 + cc / 64) / 4 = b := by omega
    have e3 : (b % 16 * 4 + cc / 64) % 4 * 64 + cc % 64 = cc := by omega
    rw [e1, e2, e3]
    rfl

/-- Base64url decoding inverts `Base64.encodeURI` on byte sequences. -/
theorem base64Decode_encodeUri (bs : List Nat) (h : ∀ b ∈ bs, b < 256) :
    base64Decode (base64EncodeUri bs) = some bs := by
  unfold base64Decode base64EncodeUri
  rw [show (String.mk ((encodeGroups bs).map b64Char)).data
      = (encodeGroups bs).map b64Char from rfl]
  rw [payloadSextets_map_b64Char (encodeGroups bs) (encodeGroups_lt bs h)]
  exact decodeGroups_encodeGroups bs h

/-- Every character code point is below 0x110000. -/
theorem char_toNat_lt (c : Char) : c.toNat < 1114112 := by
  have h := c.valid
  rcases h with h | ⟨h1, h2⟩
  · have : c.toNat = c.val.toNat := rfl
    omega
  · have : c.toNat = c.val.toNat := rfl
    omega

/-- UTF-8 encoding produces bytes. -/
theorem utf8Char_lt (c : Char) : ∀ b ∈ utf8Char c, b < 256 := by
  have hn := char_toNat_lt c
  intro b hb
  unfold utf8Char at hb
  split at hb
  · simp only [List.mem_singleton] at hb
    omega
  · split at hb
    · simp only [List.mem_cons, List.mem_singleton, List.not_mem_nil, or_false] at hb
      rcases hb with rfl | rfl <;> omega
    · split at hb
      · simp only [List.mem_cons, List.mem_singleton, List.not_mem_nil, or_false] at hb
        rcases hb with rfl | rfl | rfl <;> omega
      · simp only [List.mem_cons, List.mem_singleton, List.not_mem_nil, or_false] at hb
        rcases hb with rfl | rfl | rfl | rfl <;> omega

/-- UTF-8 encoding produces bytes. -/
theorem utf8Bytes_lt (s : String) : ∀ b ∈ utf8Bytes s, b < 256 := by
  unfold utf8Bytes
  intro b hb
  rw [List.mem_flatten] at hb
  rcases hb with ⟨l, hl, hbl⟩
  rw [List.mem_map] at hl
  rcases hl with ⟨c, _, rfl⟩
  exact utf8Char_lt c b hbl


/-! ## Auxiliary lemmas specific to single claims -/

/-- The re-download decision equals the "no manifest or strictly newer" predicate. -/
theorem needsDownload_iff_aux (env : Env) (c : SNComponent) (fs : Fs)
    (hexn : env.exn = fun _ => false)
    (hurl : truthy (resolveDownloadUrl env.features c) = true)
    (hfile : existsb fs (pathForComponent c.identifier) = true →
      existsb fs (pathForComponent c.identifier ++ ["package.json"]) = true →
      (readFilePure fs (pathForComponent c.identifier ++ ["package.json"])).isSome)
    (hread : ∀ content,
      readFilePure fs (pathForComponent c.identifier ++ ["package.json"]) = some content →
      content ≠ "" → (env.jsonParse content).isSome) :
    okResult (doesComponentNeedDownload env c ⟨fs, []⟩) = some
      ((installedPackageJsonPure env c.identifier fs).isNone
        || isRightVersionGreaterThanLeft
            ((installedPackageJsonPure env c.identifier fs).bind Manifest.version)
            (jsOr ((nativeFeatureForIdentifier env.features c.identifier).bind Feature.version)
              c.package_info_version)) := by
  by_cases h1 : existsb fs (pathForComponent c.identifier)
  · by_cases h2 : existsb fs (pathForComponent c.identifier ++ ["package.json"])
    · have hsome := hfile h1 h2
      rcases hcont : readFilePure fs (pathForComponent c.identifier ++ ["package.json"])
        with _ | content
      · rw [hcont] at hsome
        cases hsome
      by_cases hemp : content = ""
      · subst hemp
        have htr : truthy (some "") = false := rfl
        simp [doesComponentNeedDownload, getDownloadedComponentPackageJsonFile, getFile,
          fsExistsM, fsReadFileM, opRun, hexn, hurl, h1, h2, hcont, htr,
          installedPackageJsonPure, okResult]
      have hm := hread content hcont hemp
      have htr : truthy (some content) = true := by simp [truthy, hemp]
      rcases hpj : env.jsonParse content with _ | m
      · rw [hpj] at hm
        cases hm
      simp [doesComponentNeedDownload, getDownloadedComponentPackageJsonFile, getFile,
        fsExistsM, fsReadFileM, opRun, hexn, hurl, h1, h2, hcont, hpj, hemp, htr,
        installedPackageJsonPure, okResult]
    · have htrn : truthy none = false := rfl
      simp [doesComponentNeedDownload, getDownloadedComponentPackageJsonFile, getFile,
        fsExistsM, fsReadFileM, opRun, hexn, hurl, h1, h2, htrn,
        installedPackageJsonPure, okResult]
  · have htrn : truthy none = false := rfl
    simp [doesComponentNeedDownload, getDownloadedComponentPackageJsonFile, getFile,
      fsExistsM, fsReadFileM, opRun, hexn, hurl, h1, htrn,
      installedPackageJsonPure, okResult]

/-- Without a resolvable download URL, the re-download decision throws. -/
theorem needsDownload_throws_aux (env : Env) (c : SNComponent) (s : St)
    (hurl : truthy (resolveDownloadUrl env.features c) = false) :
    doesComponentNeedDownload env c s = .error s := by
  simp [doesComponentNeedDownload, hurl]

/-- `getFile` on a missing directory or file returns success with `undefined`. -/
theorem getFile_missing_aux (env : Env) (id : String) (rel : Path) (fs : Fs) (tr : List Op)
    (hexn : env.exn = fun _ => false)
    (hmiss : existsb fs (pathForComponent id) = false ∨
      existsb fs (pathForComponent id ++ rel) = false) :
    okResult (getFile env id rel ⟨fs, tr⟩) = some none := by
  rcases hmiss with h | h
  · simp [getFile, fsExistsM, opRun, hexn, h, okResult]
  · by_cases h1 : existsb fs (pathForComponent id)
    · simp [getFile, fsExistsM, opRun, hexn, h1, h, okResult]
    · simp [getFile, fsExistsM, opRun, hexn, h1, okResult]

/-- The manifest read returns success with `undefined` when the component or its
manifest is missing. -/
theorem packageJson_missing_aux (env : Env) (id : String) (fs : Fs) (tr : List Op)
    (hexn : env.exn = fun _ => false)
    (hmiss : existsb fs (pathForComponent id) = false ∨
      existsb fs (pathForComponent id ++ ["package.json"]) = false) :
    okResult (getDownloadedComponentPackageJsonFile env id ⟨fs, tr⟩) = some none := by
  have hg := getFile_missing_aux env id ["package.json"] fs tr hexn hmiss
  simp only [getDownloadedComponentPackageJsonFile]
  rcases hq : getFile env id ["package.json"] ⟨fs, tr⟩ with s1 | ⟨r, s1⟩ <;>
    rw [hq] at hg <;> simp only [okResult] at hg
  · cases hg
  rcases r with _ | file
  · rfl
  · cases hg

/-! ## Claim theorems -/

/-- C1: for every identifier present in the Feature Descriptor registry (which is
what makes checksum verification mandatory), if the download succeeds (2xx) but
the computed checksum differs from the registry's expected checksum, or the
expected checksum is missing, then `downloadComponentOffline` returns
`ChecksumMismatch`, the extraction step is never performed, and the install
directory's contents are unchanged. -/
theorem C1_checksum_mismatch_blocks_install
    (env : Env) (fs : Fs) (c : SNComponent) (f : Feature)
    (hexn : env.exn = fun _ => false)
    (hfeat : nativeFeatureForIdentifier env.features c.identifier = some f)
    (hurl : truthy (resolveDownloadUrl env.features c) = true)
    (h200 : 200 ≤ env.statusCode) (h299 : env.statusCode ≤ 299)
    (hmis : ∀ d, env.checksums c.identifier = some d → env.sha256 env.archiveB64 ≠ d) :
    okResult (downloadComponentOffline env c ⟨fs, []⟩)
        = some (some ComponentLoadingError.ChecksumMismatch)
    ∧ (∀ a b, Op.fsUnzip a b ∉ (finalSt (downloadComponentOffline env c ⟨fs, []⟩)).tr)
    ∧ subtree (finalSt (downloadComponentOffline env c ⟨fs, []⟩)).fs
        (pathForComponent c.identifier) = subtree fs (pathForComponent c.identifier) := by
  have hs2 := statusStartsWithTwo_of_2xx h200 h299
  by_cases hex : existsb fs (tmpLocationFor c.identifier)
  all_goals rcases hck : env.checksums c.identifier with _ | d
  all_goals try have hne := hmis _ hck
  all_goals
    refine ⟨?_, fun a b => ?_, ?_⟩ <;>
      first
      | simp [downloadComponentOffline, performDownloadComponent,
          passesChecksumValidation, fsExistsM, fsUnlinkM, fsDownloadM, fsReadFileM,
          sha256M, opRun, hexn, hurl, hfeat, hs2, hex, hck, hne,
          readFilePure_writeFilePure, okResult, finalSt]
      | simp [downloadComponentOffline, performDownloadComponent,
          passesChecksumValidation, fsExistsM, fsUnlinkM, fsDownloadM, fsReadFileM,
          sha256M, opRun, hexn, hurl, hfeat, hs2, hex, hck,
          readFilePure_writeFilePure, okResult, finalSt]
  case pos.none | pos.some =>
    exact (subtree_writeFilePure (cp_not_prefix_tmp _) (tmp_not_prefix_cp _) _ _).trans
      (subtree_unlinkPure (cp_not_prefix_tmp _) (tmp_not_prefix_cp _) fs)
  case neg.none | neg.some =>
    exact subtree_writeFilePure (cp_not_prefix_tmp _) (tmp_not_prefix_cp _) _ fs

/-- C1 witness: a registry identifier with expected checksum `AAA=` and computed
digest `BBB=` yields `ChecksumMismatch`, no extraction, and an unchanged (empty)
install directory. -/
theorem C1_checksum_mismatch_blocks_install_witness :
    okResult (downloadComponentOffline w1Env w1Comp ⟨[], []⟩)
        = some (some ComponentLoadingError.ChecksumMismatch)
    ∧ (∀ a b, Op.fsUnzip a b ∉ (finalSt (downloadComponentOffline w1Env w1Comp ⟨[], []⟩)).tr)
    ∧ subtree (finalSt (downloadComponentOffline w1Env w1Comp ⟨[], []⟩)).fs
        (pathForComponent w1Comp.identifier)
        = subtree [] (pathForComponent w1Comp.identifier) :=
  C1_checksum_mismatch_blocks_install w1Env [] w1Comp w1Feature rfl (by decide)
    (by decide) (by decide) (by decide) (fun d hd => by cases hd; decide)

/-- C2: for every identifier absent from the Feature Descriptor registry,
`downloadComponentOffline` never returns `ChecksumMismatch` and never invokes the
checksum computation, whatever the download outcome (including collaborator
faults anywhere in the pipeline). -/
theorem C2_thirdparty_never_checksum (env : Env) (c : SNComponent) (fs : Fs)
    (hfeat : nativeFeatureForIdentifier env.features c.identifier = none) :
    okResult (downloadComponentOffline env c ⟨fs, []⟩)
        ≠ some (some ComponentLoadingError.ChecksumMismatch) ∧
      ∀ x, Op.cryptoSha256 x ∉ (finalSt (downloadComponentOffline env c ⟨fs, []⟩)).tr := by
  have hnil : ShaFree ((⟨fs, []⟩ : St).tr) := by intro x; simp
  simp only [downloadComponentOffline]
  split
  · exact ⟨by simp [okResult], fun x => by simp [finalSt]⟩
  have hp := perform_thirdparty_shaFree env c.identifier
    ((resolveDownloadUrl env.features c).getD "") ⟨fs, []⟩ hfeat hnil
  rcases hq : performDownloadComponent env c.identifier
      ((resolveDownloadUrl env.features c).getD "") ⟨fs, []⟩ with sc | ⟨r, s1⟩ <;>
    rw [hq] at hp <;> simp only [finalSt] at hp
  · exact ⟨by simp [okResult], fun x => hp.1 x⟩
  have hr := hp.2 r s1 rfl
  have hs1 : ShaFree s1.tr := hp.1
  rcases r with _ | err
  · dsimp only
    rcases he : fsExistsM env (pathForComponent c.identifier) s1 with s2 | ⟨exOk, s2⟩ <;>
      have ee := tr_fsExistsM env (pathForComponent c.identifier) s1 <;>
      rw [he] at ee <;> simp only [finalSt] at ee
    · refine ⟨by simp [okResult], fun x => ?_⟩
      have hs2 : ShaFree s2.tr := by
        rw [ee]; exact shaFree_append _ _ (fun y => by simp) hs1
      exact hs2 x
    have hs2 : ShaFree s2.tr := by
      rw [ee]; exact shaFree_append _ _ (fun y => by simp) hs1
    rcases exOk with _ | _
    · exact ⟨show (some (some ComponentLoadingError.DoesntExist)
            : Option (Option ComponentLoadingError))
          ≠ some (some ComponentLoadingError.ChecksumMismatch) by simp, fun x => hs2 x⟩
    · exact ⟨show (some (none : Option ComponentLoadingError)
            : Option (Option ComponentLoadingError))
          ≠ some (some ComponentLoadingError.ChecksumMismatch) by simp, fun x => hs2 x⟩
  · refine ⟨?_, fun x => hs1 x⟩
    intro hcontra
    have heq : (some (some err) : Option (Option ComponentLoadingError))
        = some (some ComponentLoadingError.ChecksumMismatch) := hcontra
    rw [Option.some.injEq, Option.some.injEq] at heq
    rw [heq] at hr
    exact hr rfl

/-- C2 witness: a third-party identifier's successful download never yields
`ChecksumMismatch` and never computes a checksum. -/
theorem C2_thirdparty_never_checksum_witness :
    okResult (downloadComponentOffline w2Env w2Comp ⟨[], []⟩)
        ≠ some (some ComponentLoadingError.ChecksumMismatch) ∧
      ∀ x, Op.cryptoSha256 x ∉ (finalSt (downloadComponentOffline w2Env w2Comp ⟨[], []⟩)).tr :=
  C2_thirdparty_never_checksum w2Env w2Comp [] rfl

/-- C3 counterexample: a component with a resolvable download URL whose
post-extraction existence check rejects its promise: `downloadComponentOffline`
propagates the exception instead of returning a defined outcome, because the
`try`/`catch` ends before the post-check. -/
theorem C3_counterexample_postcheck_throws :
    truthy (resolveDownloadUrl c3Env.features c3Component) = true ∧
      (downloadComponentOffline c3Env c3Component ⟨[], []⟩).isOk = false := by
  constructor
  · decide
  · decide

/-- C3 (amended): the `try`/`catch` covers exactly `performDownloadComponent`
(download, verify, extract): any exception there is mapped to `Unknown`; and
whenever the post-extraction existence check itself does not throw, the result
is one of the defined outcomes or success.  (As stated, with the catch covering
the whole sequence including the post-check, the claim is refuted by
`C3_counterexample_postcheck_throws`.) -/
theorem C3_amended_catch_scope :
    (∀ (env : Env) (c : SNComponent) (s : St),
      truthy (resolveDownloadUrl env.features c) = true →
      (performDownloadComponent env c.identifier
        ((resolveDownloadUrl env.features c).getD "") s).isOk = false →
      okResult (downloadComponentOffline env c s)
        = some (some ComponentLoadingError.Unknown))
    ∧ (∀ (env : Env) (c : SNComponent) (s : St),
      truthy (resolveDownloadUrl env.features c) = true →
      env.exn (Op.fsExists (pathForComponent c.identifier)) = false →
      (downloadComponentOffline env c s).isOk = true) := by
  constructor
  · intro env c s hurl hko
    simp only [downloadComponentOffline, hurl, Bool.not_true, Bool.false_eq_true,
      if_false]
    rcases hq : performDownloadComponent env c.identifier
        ((resolveDownloadUrl env.features c).getD "") s with sc | ⟨r, s1⟩
    · simp [okResult]
    · rw [hq] at hko
      simp [Except.isOk, Except.toBool] at hko
  · intro env c s hurl hpost
    simp only [downloadComponentOffline, hurl, Bool.not_true, Bool.false_eq_true,
      if_false]
    rcases hq : performDownloadComponent env c.identifier
        ((resolveDownloadUrl env.features c).getD "") s with sc | ⟨r, s1⟩
    · rfl
    rcases r with _ | err
    · dsimp only
      simp only [fsExistsM, opRun, hpost, Bool.false_eq_true, if_false]
      rcases existsb s1.fs (pathForComponent c.identifier) with _ | _ <;> rfl
    · rfl

/-- C3 witness: with a rejecting zip extractor, the exception inside the pipeline
is caught and mapped to `Unknown`, and the overall call still returns a value. -/
theorem C3_amended_catch_scope_witness :
    okResult (downloadComponentOffline w3Env w3Comp ⟨[], []⟩)
        = some (some ComponentLoadingError.Unknown)
    ∧ (downloadComponentOffline w3Env w3Comp ⟨[], []⟩).isOk = true :=
  ⟨C3_amended_catch_scope.1 w3Env w3Comp ⟨[], []⟩ (by decide) (by decide),
    C3_amended_catch_scope.2 w3Env w3Comp ⟨[], []⟩ (by decide) (by decide)⟩

/-- C4 counterexample: transport status code 20 is outside the interval 200–299,
yet the pipeline treats it as success — `downloadComponentOffline` returns
success and performs the extraction, because the source tests
`String(statusCode).startsWith('2')` rather than the 2xx interval. -/
theorem C4_counterexample_status20 :
    c4Env.statusCode = 20 ∧ ¬ (200 ≤ c4Env.statusCode ∧ c4Env.statusCode ≤ 299) ∧
      okResult (downloadComponentOffline c4Env c4Component ⟨[], []⟩) = some none ∧
      Op.fsUnzip (tmpLocationFor "sample") (pathForComponent "sample")
          ∈ (finalSt (downloadComponentOffline c4Env c4Component ⟨[], []⟩)).tr := by
  refine ⟨rfl, by decide, by decide, by decide⟩

/-- C4 (amended): for every download attempt whose status code's decimal
representation does not start with the character `2` — which for genuine
three-digit HTTP status codes coincides with "not in the 2xx class" —
`downloadComponentOffline` returns `FailedDownload`, performs neither checksum
verification nor extraction, and leaves the install directory unchanged. -/
theorem C4_amended_status_gate (env : Env) (fs : Fs) (c : SNComponent)
    (hexn : env.exn = fun _ => false)
    (hurl : truthy (resolveDownloadUrl env.features c) = true)
    (hst : statusStartsWithTwo env.statusCode = false) :
    okResult (downloadComponentOffline env c ⟨fs, []⟩)
        = some (some ComponentLoadingError.FailedDownload)
    ∧ (∀ a b, Op.fsUnzip a b ∉ (finalSt (downloadComponentOffline env c ⟨fs, []⟩)).tr)
    ∧ (∀ x, Op.cryptoSha256 x ∉ (finalSt (downloadComponentOffline env c ⟨fs, []⟩)).tr)
    ∧ subtree (finalSt (downloadComponentOffline env c ⟨fs, []⟩)).fs
        (pathForComponent c.identifier) = subtree fs (pathForComponent c.identifier) := by
  by_cases hex : existsb fs (tmpLocationFor c.identifier)
  all_goals
    refine ⟨?_, fun a b => ?_, fun x => ?_, ?_⟩ <;>
      simp [downloadComponentOffline, performDownloadComponent,
        fsExistsM, fsUnlinkM, fsDownloadM, opRun, hexn, hurl, hst, hex,
        okResult, finalSt]
  case pos =>
    exact (subtree_writeFilePure (cp_not_prefix_tmp _) (tmp_not_prefix_cp _) _ _).trans
      (subtree_unlinkPure (cp_not_prefix_tmp _) (tmp_not_prefix_cp _) fs)
  case neg =>
    exact subtree_writeFilePure (cp_not_prefix_tmp _) (tmp_not_prefix_cp _) _ fs

/-- C4 witness: HTTP 404 yields `FailedDownload` with no checksum computation, no
extraction, and an unchanged (empty) install directory. -/
theorem C4_amended_status_gate_witness :
    okResult (downloadComponentOffline w4Env w4Comp ⟨[], []⟩)
        = some (some ComponentLoadingError.FailedDownload)
    ∧ (∀ a b, Op.fsUnzip a b ∉ (finalSt (downloadComponentOffline w4Env w4Comp ⟨[], []⟩)).tr)
    ∧ (∀ x, Op.cryptoSha256 x ∉ (finalSt (downloadComponentOffline w4Env w4Comp ⟨[], []⟩)).tr)
    ∧ subtree (finalSt (downloadComponentOffline w4Env w4Comp ⟨[], []⟩)).fs
        (pathForComponent w4Comp.identifier)
        = subtree [] (pathForComponent w4Comp.identifier) :=
  C4_amended_status_gate w4Env [] w4Comp rfl (by decide) (by decide)

/-- C5: `doesComponentNeedDownload` returns true exactly when there is no installed
manifest or the latest known version (registry version taking precedence) is
strictly greater than the installed one under major.minor.patch semver ordering;
in particular 1.2.0 → 1.3.0 needs a download and 1.3.0 → 1.3.0 (or lower) does
not; and it throws when no download URL is resolvable. -/
theorem C5_needs_download_spec :
    (∀ (env : Env) (c : SNComponent) (fs : Fs),
      env.exn = (fun _ => false) →
      truthy (resolveDownloadUrl env.features c) = true →
      (existsb fs (pathForComponent c.identifier) = true →
        existsb fs (pathForComponent c.identifier ++ ["package.json"]) = true →
        (readFilePure fs (pathForComponent c.identifier ++ ["package.json"])).isSome) →
      (∀ content,
        readFilePure fs (pathForComponent c.identifier ++ ["package.json"]) = some content →
        content ≠ "" → (env.jsonParse content).isSome) →
      okResult (doesComponentNeedDownload env c ⟨fs, []⟩) = some
        ((installedPackageJsonPure env c.identifier fs).isNone
          || isRightVersionGreaterThanLeft
              ((installedPackageJsonPure env c.identifier fs).bind Manifest.version)
              (jsOr ((nativeFeatureForIdentifier env.features c.identifier).bind
                  Feature.version)
                c.package_info_version)))
    ∧ (∀ (env : Env) (c : SNComponent) (s : St),
      truthy (resolveDownloadUrl env.features c) = false →
      doesComponentNeedDownload env c s = .error s)
    ∧ isRightVersionGreaterThanLeft (some "1.2.0") (some "1.3.0") = true
    ∧ isRightVersionGreaterThanLeft (some "1.3.0") (some "1.3.0") = false
    ∧ isRightVersionGreaterThanLeft (some "1.3.0") (some "1.2.9") = false := by
  refine ⟨?_, ?_, by decide, by decide, by decide⟩
  · intro env c fs h1 h2 h3 h4
    exact needsDownload_iff_aux env c fs h1 h2 h3 h4
  · intro env c s h
    exact needsDownload_throws_aux env c s h

/-- C5 witness: installed 1.2.0 against registry 1.3.0 needs a download; a
component with no resolvable URL makes the decision throw. -/
theorem C5_needs_download_spec_witness :
    okResult (doesComponentNeedDownload w5Env w5Comp ⟨w5Fs, []⟩) = some
      ((installedPackageJsonPure w5Env w5Comp.identifier w5Fs).isNone
        || isRightVersionGreaterThanLeft
            ((installedPackageJsonPure w5Env w5Comp.identifier w5Fs).bind Manifest.version)
            (jsOr ((nativeFeatureForIdentifier w5Env.features w5Comp.identifier).bind
                Feature.version)
              w5Comp.package_info_version))
    ∧ doesComponentNeedDownload w5Env w5NoUrlComp ⟨[], []⟩ = .error ⟨[], []⟩ :=
  ⟨C5_needs_download_spec.1 w5Env w5Comp w5Fs rfl (by decide) (by decide)
      (fun content hc _ => by
        have h2 : (some "PKG12" : Option String) = some content := hc
        cases h2
        decide),
    C5_needs_download_spec.2.1 w5Env w5NoUrlComp ⟨[], []⟩ (by decide)⟩

/-- C6: for every system theme, `urlForComponent` returns a
`data:text/css;base64,` URL whose base64url payload decodes to the UTF-8 bytes of
the serialized theme variables, and the result does not depend on the Local Asset
Server's base URL. -/
theorem C6_system_theme_data_url (features : List Feature) (cache : IndexCache)
    (u1 u2 : String) (su : String → Option String) (c : SNComponent)
    (hth : c.isThemeFlag = true) (hsys : c.isSystemTheme = true) :
    urlForComponent features cache u1 su c
        = .ok (some ("data:text/css;base64,"
            ++ base64EncodeUri (utf8Bytes (objectToCss c.themeVariables))))
      ∧ base64Decode (base64EncodeUri (utf8Bytes (objectToCss c.themeVariables)))
        = some (utf8Bytes (objectToCss c.themeVariables))
      ∧ urlForComponent features cache u1 su c = urlForComponent features cache u2 su c := by
  refine ⟨by simp [urlForComponent, hth, hsys],
    base64Decode_encodeUri _ (utf8Bytes_lt _),
    by simp [urlForComponent, hth, hsys]⟩

/-- C6 witness: a concrete system theme renders as a `data:` URL, its payload
decodes back to the serialized variables, and any two server base URLs give the
same result. -/
theorem C6_system_theme_data_url_witness :
    urlForComponent [] [] "http://localhost:8080" (fun _ => none) w6Comp
        = .ok (some ("data:text/css;base64,"
            ++ base64EncodeUri (utf8Bytes (objectToCss w6Comp.themeVariables))))
      ∧ base64Decode (base64EncodeUri (utf8Bytes (objectToCss w6Comp.themeVariables)))
        = some (utf8Bytes (objectToCss w6Comp.themeVariables))
      ∧ urlForComponent [] [] "http://localhost:8080" (fun _ => none) w6Comp
        = urlForComponent [] [] "http://192.168.0.2:8080" (fun _ => none) w6Comp :=
  C6_system_theme_data_url [] [] "http://localhost:8080" "http://192.168.0.2:8080"
    (fun _ => none) w6Comp rfl rfl

/-- C7 counterexample: for a third-party identifier with an empty cache,
`getIndexFileRelativePath` returns `undefined` — a value, not a throw; its Lean
embedding is a total function into `Option`. -/
theorem C7_counterexample_returns_value :
    nativeFeatureForIdentifier [] "com.thirdparty.editor" = none ∧
      getIndexFileRelativePath [] [] "com.thirdparty.editor" = none :=
  ⟨rfl, rfl⟩

/-- C7 (amended): for a third-party identifier whose index path has not been
preloaded, `getIndexFileRelativePath` returns `undefined`; the throw the spec
describes happens in its caller `urlForComponent` (message "Third party index
path was not preloaded"). -/
theorem C7_amended_undefined_then_caller_throws :
    (∀ (features : List Feature) (cache : IndexCache) (id : String),
      nativeFeatureForIdentifier features id = none → cache.lookup id = none →
      getIndexFileRelativePath features cache id = none) ∧
    (∀ (features : List Feature) (cache : IndexCache) (u : String)
        (su : String → Option String) (c : SNComponent),
      (c.isThemeFlag && c.isSystemTheme) = false →
      isComponentDownloadable features c = true →
      nativeFeatureForIdentifier features c.identifier = none →
      cache.lookup c.identifier = none →
      urlForComponent features cache u su c = .error ()) := by
  constructor
  · intro features cache id hf hc
    simp [getIndexFileRelativePath, hf, hc]
  · intro features cache u su c hth hdl hf hc
    simp [urlForComponent, hth, hdl, getIndexFileRelativePath, hf, hc, truthy]

/-- C7 witness: an uncached third-party identifier gives `undefined` from the
resolver and a throw from `urlForComponent`. -/
theorem C7_amended_undefined_then_caller_throws_witness :
    getIndexFileRelativePath [] [] w7Comp.identifier = none ∧
      urlForComponent [] [] "http://localhost:8080" (fun _ => none) w7Comp = .error () :=
  ⟨C7_amended_undefined_then_caller_throws.1 [] [] w7Comp.identifier rfl rfl,
    C7_amended_undefined_then_caller_throws.2 [] [] "http://localhost:8080"
      (fun _ => none) w7Comp (by decide) (by decide) rfl rfl⟩

/-- C8: when the extracted root holds exactly one entry and it is a directory, the
normalization run succeeds and the install directory's children become exactly
the wrapped directory's children; and on an already-normalized directory the step
reads the directory and changes nothing. -/
theorem C8_layout_normalization :
    (∀ (env : Env) (id nm : String) (fs : Fs) (tr : List Op),
      env.exn = (fun _ => false) → id ≠ componentsFolder →
      readDirPure fs (pathForComponent id) = [⟨pathForComponent id ++ [nm], true⟩] →
      okResult (normalizeIfNested env id ⟨fs, tr⟩) = some () ∧
        ∀ c, c ∈ childNamesPure (finalSt (normalizeIfNested env id ⟨fs, tr⟩)).fs
            (pathForComponent id)
          ↔ c ∈ childNamesPure fs (pathForComponent id ++ [nm]))
    ∧ (∀ (env : Env) (id : String) (fs : Fs) (tr : List Op),
      env.exn = (fun _ => false) →
      isNestedLayout fs (pathForComponent id) = false →
      normalizeIfNested env id ⟨fs, tr⟩ =
        .ok ((), ⟨fs, tr ++ [Op.fsReadDir (pathForComponent id)]⟩)) := by
  constructor
  · intro env id nm fs tr h1 h2 h3
    exact C8part1 env id nm fs tr h1 h2 h3
  · intro env id fs tr h1 h2
    exact C8part2 env id fs tr h1 h2

/-- C8 witness: a concrete wrapped layout is lifted so the children become
`index.html` and `sub`, and a concrete flat layout is left untouched. -/
theorem C8_layout_normalization_witness :
    (okResult (normalizeIfNested w8Env w8Id ⟨w8Fs, []⟩) = some () ∧
      ∀ c, c ∈ childNamesPure (finalSt (normalizeIfNested w8Env w8Id ⟨w8Fs, []⟩)).fs
          (pathForComponent w8Id)
        ↔ c ∈ childNamesPure w8Fs (pathForComponent w8Id ++ ["wrap"]))
    ∧ normalizeIfNested w8Env w8Id ⟨w8FlatFs, []⟩ =
        .ok ((), ⟨w8FlatFs, [] ++ [Op.fsReadDir (pathForComponent w8Id)]⟩) :=
  ⟨C8_layout_normalization.1 w8Env w8Id "wrap" w8Fs [] rfl (by decide) (by decide),
    C8_layout_normalization.2 w8Env w8Id w8FlatFs [] rfl (by decide)⟩

/-- C9 counterexample: a non-protected trashed note's common-actions section holds
seven actions — pin, archive, lock, protect, share, restore, delete-permanently —
not exactly `[Restore, Delete permanently]`. -/
theorem C9_counterexample_trashed_actions :
    (commonSectionActions c9Note).map SheetAction.key
        = ["pin", "archive", "lock", "protect", "share", "restore-note", "delete-forever"]
      ∧ commonSectionActions c9Note ≠ [restoreAction, deleteAction] :=
  ⟨rfl, by decide⟩

/-- C9 (amended): for every non-protected trashed note, the common-actions section
is pin, archive, lock, protect, share, then `Restore` and `Delete permanently` in
that order — the trashed flag only replaces `Move to Trash` by those two final
actions, which is absent. -/
theorem C9_amended_trashed_actions (note : NoteFlags) (htr : note.trashed = true)
    (hpr : note.protectedFlag = false) :
    commonSectionActions note =
      [pinAction note, archiveAction note, lockAction note, protectAction note,
        shareAction, restoreAction, deleteAction]
      ∧ moveToTrashAction ∉ commonSectionActions note := by
  constructor
  · simp [commonSectionActions, htr, hpr]
  · simp [commonSectionActions, htr, hpr, pinAction, archiveAction, lockAction,
      protectAction, shareAction, restoreAction, deleteAction, moveToTrashAction]

/-- C9 witness: a pinned, locked, trashed note shows the seven common actions
ending in restore and delete-permanently, without move-to-trash. -/
theorem C9_amended_trashed_actions_witness :
    commonSectionActions w9Note =
      [pinAction w9Note, archiveAction w9Note, lockAction w9Note, protectAction w9Note,
        shareAction, restoreAction, deleteAction]
      ∧ moveToTrashAction ∉ commonSectionActions w9Note :=
  C9_amended_trashed_actions w9Note rfl rfl

/-- C10: `getFile` returns `undefined` (not an error) whenever the install
directory or the requested file is missing, and consequently
`getDownloadedComponentPackageJsonFile` returns `undefined` for an identifier
with no installed component or no `package.json`. -/
theorem C10_getFile_missing_undefined :
    (∀ (env : Env) (id : String) (rel : Path) (fs : Fs) (tr : List Op),
      env.exn = (fun _ => false) →
      (existsb fs (pathForComponent id) = false ∨
        existsb fs (pathForComponent id ++ rel) = false) →
      okResult (getFile env id rel ⟨fs, tr⟩) = some none)
    ∧ (∀ (env : Env) (id : String) (fs : Fs) (tr : List Op),
      env.exn = (fun _ => false) →
      (existsb fs (pathForComponent id) = false ∨
        existsb fs (pathForComponent id ++ ["package.json"]) = false) →
      okResult (getDownloadedComponentPackageJsonFile env id ⟨fs, tr⟩) = some none) := by
  constructor
  · intro env id rel fs tr h1 h2
    exact getFile_missing_aux env id rel fs tr h1 h2
  · intro env id fs tr h1 h2
    exact packageJson_missing_aux env id fs tr h1 h2

/-- C10 witness: a missing file in an installed directory, and a missing
`package.json`, both give `undefined` without an error. -/
theorem C10_getFile_missing_undefined_witness :
    okResult (getFile w10Env "demo" ["missing.txt"] ⟨w10Fs, []⟩) = some none
      ∧ okResult (getDownloadedComponentPackageJsonFile w10Env "demo" ⟨w10Fs, []⟩)
          = some none :=
  ⟨C10_getFile_missing_undefined.1 w10Env "demo" ["missing.txt"] w10Fs []
      rfl (Or.inr (by decide)),
    C10_getFile_missing_undefined.2 w10Env "demo" w10Fs [] rfl (Or.inr (by decide))⟩

end CompMgr
